import Mathlib

/-!
Shallow embedding of `src/retrieve_data_from_GA4.py` (class `GetGA4Data`).

Python dictionaries are modelled as association lists preserving insertion
order (Python dicts iterate in insertion order).  Python exceptions
(`NameError` from reading an unbound local, `KeyError`, `IndexError`,
`ValueError`/conversion errors) are modelled with `Except PyErr`.
pandas `DataFrame`s are modelled column-orientedly: an ordered list of
(column name, list of cells).  `uuid.uuid4()` and `datetime.now()` are
modelled by explicitly passed generators/clock values.
-/

set_option autoImplicit false

namespace GA4

/-- Python exceptions that the embedded code can raise. -/
inductive PyErr where
  /-- reading a local variable that was never assigned -/
  | nameError
  /-- missing key in a dict / missing column in a DataFrame -/
  | keyError
  /-- list index out of range, including `value[0]` on an empty list -/
  | indexError
  /-- conversion failures (`astype`, `pd.to_datetime`) and pandas shape errors -/
  | valueError
  deriving DecidableEq, Repr

/-- Model of a Python `datetime.datetime` value. -/
structure PyDatetime where
  year : Nat
  month : Nat
  day : Nat
  hour : Nat
  minute : Nat
  second : Nat
  microsecond : Nat
  deriving DecidableEq, Repr

/-- One field-group record of the configuration, e.g.
`{"dimension": ['date', 'userGender']}`: a dict from key to a list of
field names. -/
abbrev Record := List (String × List String)

/-- The configuration: report name → list of field-group records. -/
abbrev Config := List (String × List Record)

/-- The per-report column accumulator `report_data` (a `defaultdict(list)`):
column name → ordered list of raw string values, in key-insertion order. -/
abbrev Data := List (String × List String)

/-- Membership test for a key in an association list (`k in d.keys()`). -/
def hasKey {α : Type} (l : List (String × α)) (k : String) : Bool :=
  l.any (fun p => p.1 == k)

/-- Dict lookup (`d[k]`) returning `none` when the key is absent. -/
def lookupKey {α : Type} : List (String × α) → String → Option α
  | [], _ => none
  | p :: t, k => if p.1 == k then some p.2 else lookupKey t k

/-- Model of the mutable `GetGA4Data` instance state that matters for the
requests: the date range fixed at `__init__`.  (`dimension_lst` /
`metric_lst` are set by `dimension_parameters` / `metric_parameters` and
cleared by `reset_parameters`, but every read happens right after the
write with the same value, so they do not affect any output.) -/
structure GetGA4Data where
  start_date : String
  end_date : String
  deriving DecidableEq, Repr

/-- Constructor `GetGA4Data.__init__`: empty/absent dates fall back to the
fixed historical month (Python truthiness: `None` and `""` both default). -/
def GetGA4Data.init (start_date? end_date? : Option String) : GetGA4Data :=
  { start_date :=
      match start_date? with
      | some s => if s = "" then "2024-04-01" else s
      | none => "2024-04-01"
    end_date :=
      match end_date? with
      | some s => if s = "" then "2024-04-30" else s
      | none => "2024-04-30" }

/-- Model of a `RunReportRequest` proto: dimensions, metrics, date ranges
and the row limit, each in construction order. -/
structure RunReportRequest where
  dimensions : List String
  metrics : List String
  date_ranges : List (String × String)
  limit : Nat
  deriving DecidableEq, Repr

/-- Model of a `BatchRunReportsRequest` proto. -/
structure BatchRunReportsRequest where
  property : String
  requests : List RunReportRequest
  deriving DecidableEq, Repr

/-- Method `request_parameters`: builds one `RunReportRequest` carrying the
given dimension names in order, metric names in order, the single
date range of the instance, and `limit=100000`.
(`dimension_parameters` / `metric_parameters` just store and return their
argument, so they are inlined.) -/
def request_parameters (st : GetGA4Data) (dimension_lst : List String)
    (metric_lst : List String) : RunReportRequest :=
  { dimensions := dimension_lst
    metrics := metric_lst
    date_ranges := [(st.start_date, st.end_date)]
    limit := 100000 }

/-- Method `parse_input`: `value = [data[params] for data in config[name]
if params in data.keys()]` guarded by `if name in config`, then
`return value[0]`.  When `name` is absent the local `value` is never
assigned and the `return` raises `NameError`; when no record carries the
key, `value` is `[]` and `value[0]` raises `IndexError`. -/
def parse_input (config : Config) (name : String) (params : String) :
    Except PyErr (List String) :=
  match lookupKey config name with
  | none => .error .nameError
  | some records =>
    match (records.filter (fun r => hasKey r params)).map
        (fun r => (lookupKey r params).getD []) with
    | [] => .error .indexError
    | v :: _ => .ok v

/-- The request-assembly loop of `run_report_batch`: for each report name in
the config's key order, resolve dimensions and metrics and build a
request.  (The source wraps each result in a copying
`RunReportRequest(...)` constructor, which is the identity on the
message.)  The first `parse_input` failure aborts the loop. -/
def build_request_list (st : GetGA4Data) (config : Config) :
    List String → Except PyErr (List RunReportRequest)
  | [] => .ok []
  | name :: rest => do
    let dims ← parse_input config name "dimension"
    let mets ← parse_input config name "metric"
    let req := request_parameters st dims mets
    let reqs ← build_request_list st config rest
    pure (req :: reqs)

/-- One response row: ordered dimension values and ordered metric values,
each a raw text string. -/
structure Row where
  dimension_values : List String
  metric_values : List String
  deriving DecidableEq, Repr

/-- One report result of the batch response. -/
structure Report where
  rows : List Row
  deriving DecidableEq, Repr

/-- The batch response: an ordered list of report results. -/
structure Response where
  reports : List Report
  deriving DecidableEq, Repr

/-- Model of the service client: a pure capability mapping the batch
request to a response (`client.batch_run_reports`). -/
abbrev Client := BatchRunReportsRequest → Response

/-- Method `run_report_batch`: builds all requests (request assembly), then
wraps them with the property id and sends the batch through the client.
The client function is applied only after every request was built, so a
`parse_input` failure yields an error that does not depend on the
client. -/
def run_report_batch (st : GetGA4Data) (client : Client) (property_id : Int)
    (config : Config) : Except PyErr Response := do
  let request_lst ← build_request_list st config (config.map Prod.fst)
  let requests : BatchRunReportsRequest :=
    { property := "properties/" ++ toString property_id
      requests := request_lst }
  pure (client requests)

/-- One cell of a pandas DataFrame column: a raw string (`object` dtype), a
64-bit integer (`int64`), a float (`float64`, value modelled as a
rational), or a datetime (`datetime64`). -/
inductive Cell where
  | rawStr (s : String)
  | intVal (n : Int)
  | floatVal (q : Rat)
  | dtVal (t : PyDatetime)
  deriving DecidableEq, Repr

/-- Column-oriented model of a pandas DataFrame: ordered list of
(column name, cells).  Well-formed frames have equal-length columns. -/
structure DataFrame where
  cols : List (String × List Cell)
  deriving DecidableEq, Repr

/-- Column presence test (`column in df.columns`). -/
def DataFrame.hasCol (df : DataFrame) (k : String) : Bool :=
  hasKey df.cols k

/-- Column read (`df[k]`) returning `none` when the column is absent
(pandas raises `KeyError` there; callers turn `none` into the error). -/
def DataFrame.getCol (df : DataFrame) (k : String) : Option (List Cell) :=
  lookupKey df.cols k

/-- Column assignment `df[k] = v`: overwrites an existing column in place,
otherwise appends a new column at the end. -/
def DataFrame.setCol (df : DataFrame) (k : String) (v : List Cell) : DataFrame :=
  if df.hasCol k then
    ⟨df.cols.map (fun p => if p.1 == k then (p.1, v) else p)⟩
  else
    ⟨df.cols ++ [(k, v)]⟩

/-- Row count `len(df.index)`: the common length of the columns (0 for a
frame with no columns). -/
def DataFrame.nrows (df : DataFrame) : Nat :=
  match df.cols with
  | [] => 0
  | (_, v) :: _ => v.length

/-- Target dtypes of the `column_types` coercion table. -/
inductive Dtype where
  | int64
  | float64
  deriving DecidableEq, Repr

/-- Parse of the digit list of a nonempty decimal numeral. -/
def digitsToNat (cs : List Char) : Option Nat :=
  if cs.isEmpty then none
  else cs.foldlM
    (fun acc c => if c.isDigit then some (acc * 10 + (c.toNat - 48)) else none) 0

/-- Model of Python `int(...)` string conversion (used by numpy when
casting a string column to `int64`): optional sign, then digits. -/
def parseInt (s : String) : Option Int :=
  match s.toList with
  | '-' :: rest => (digitsToNat rest).map (fun n => -(n : Int))
  | cs => (digitsToNat cs).map (fun n => (n : Int))

/-- Model of numpy string-to-float64 conversion: optional sign, integer
part, optional fractional part; the value is kept as a rational
`mantissa / 10 ^ (number of fraction digits)`. -/
def parseFloat (s : String) : Option Rat :=
  let cs := s.toList
  let (neg, cs) :=
    match cs with
    | '-' :: rest => (true, rest)
    | _ => (false, cs)
  let intPart := cs.takeWhile (fun c => c ≠ '.')
  let rest := cs.dropWhile (fun c => c ≠ '.')
  let mag : Option Rat :=
    match rest with
    | [] => (digitsToNat intPart).map (fun n => mkRat n 1)
    | _ :: frac => do
      let ip ← digitsToNat intPart
      let fp ← digitsToNat frac
      pure (mkRat (ip * 10 ^ frac.length + fp) (10 ^ frac.length))
  mag.map (fun q => if neg then -q else q)

/-- Conversion of one cell by `Series.astype`: strings are parsed (a parse
failure or an int64 overflow raises), values already of the target type
pass through, anything else raises. -/
def castCell (dt : Dtype) (c : Cell) : Except PyErr Cell :=
  match dt, c with
  | .int64, .rawStr s =>
    match parseInt s with
    | some n =>
      if -(2 ^ 63) ≤ n ∧ n < 2 ^ 63 then .ok (.intVal n) else .error .valueError
    | none => .error .valueError
  | .int64, .intVal n => .ok (.intVal n)
  | .int64, _ => .error .valueError
  | .float64, .rawStr s =>
    match parseFloat s with
    | some q => .ok (.floatVal q)
    | none => .error .valueError
  | .float64, .floatVal q => .ok (.floatVal q)
  | .float64, .intVal n => .ok (.floatVal (n : Rat))
  | .float64, _ => .error .valueError

/-- Whole-column `astype`: converts every cell or raises. -/
def astype (col : List Cell) (dt : Dtype) : Except PyErr (List Cell) :=
  col.mapM (castCell dt)

/-- The fixed allow-list `column_types` of `change_col_type`, in source
order: column name → desired dtype. -/
def column_types : List (String × Dtype) :=
  [("activeUsers", .int64),
   ("active1DayUsers", .int64),
   ("active7DayUsers", .int64),
   ("active28DayUsers", .int64),
   ("userEngagementDuration", .float64),
   ("engagedSessions", .int64),
   ("sessions", .int64)]

/-- The body of the `change_col_type` loop:
`if column in df.columns: df[column] = df[column].astype(dtype)`. -/
def coerceStep (d : DataFrame) (p : String × Dtype) : Except PyErr DataFrame :=
  if d.hasCol p.1 then do
    let col ← astype ((d.getCol p.1).getD []) p.2
    pure (d.setCol p.1 col)
  else
    pure d

/-- Method `change_col_type`: loops over `column_types` and converts each
column that exists in the DataFrame; absent columns are skipped.  The
source mutates `df` in place; the model returns the updated frame. -/
def change_col_type (df : DataFrame) : Except PyErr DataFrame :=
  column_types.foldlM coerceStep df

/-- Model of the date formats `pd.to_datetime` accepts here: GA4's `date`
dimension is an 8-digit `YYYYMMDD` string, parsed to a midnight
datetime; anything else fails. -/
def parseDatetime8 (s : String) : Option PyDatetime :=
  match s.toList with
  | [y1, y2, y3, y4, m1, m2, d1, d2] => do
    let y ← digitsToNat [y1, y2, y3, y4]
    let m ← digitsToNat [m1, m2]
    let d ← digitsToNat [d1, d2]
    if 1 ≤ m ∧ m ≤ 12 ∧ 1 ≤ d ∧ d ≤ 31 then
      some ⟨y, m, d, 0, 0, 0, 0⟩
    else
      none
  | _ => none

/-- Model of `pd.to_datetime` on one cell: a raw date string parses to a
datetime, an existing datetime passes through, anything else raises a
format error. -/
def toDatetimeCell (c : Cell) : Except PyErr Cell :=
  match c with
  | .rawStr s =>
    match parseDatetime8 s with
    | some t => .ok (.dtVal t)
    | none => .error .valueError
  | .dtVal t => .ok (.dtVal t)
  | _ => .error .valueError

/-- The lambda of `change_date_type`: `datetime(x.year, x.month, x.day)`,
discarding the time-of-day of a datetime cell. -/
def truncateToMidnight (c : Cell) : Cell :=
  match c with
  | .dtVal t => .dtVal ⟨t.year, t.month, t.day, 0, 0, 0, 0⟩
  | c => c

/-- Method `change_date_type`: `df['date'] = pd.to_datetime(df['date'])`
followed by the midnight-truncating `apply`.  Reading `df['date']`
raises `KeyError` when the column is absent; unparseable values raise a
format error. -/
def change_date_type (df : DataFrame) : Except PyErr DataFrame :=
  match df.getCol "date" with
  | none => .error .keyError
  | some col => do
    let parsed ← col.mapM toDatetimeCell
    pure (df.setCol "date" (parsed.map truncateToMidnight))

/-- Method `add_insert_info`: one fresh uuid hex string per row (`gen i` is
the i-th draw of `uuid.uuid4().hex` in this call) and a single
`datetime.now()` value `now` broadcast to every row. -/
def add_insert_info (gen : Nat → String) (now : PyDatetime)
    (df : DataFrame) : DataFrame :=
  let n := df.nrows
  let df := df.setCol "uuid" ((List.range n).map (fun i => Cell.rawStr (gen i)))
  df.setCol "emitted_at" (List.replicate n (Cell.dtVal now))

/-- Constructor call `pd.DataFrame(data)` on the column accumulator: the
columns appear in key-insertion order holding raw strings; unequal
column lengths raise a shape error. -/
def pdDataFrame (data : Data) : Except PyErr DataFrame :=
  match data with
  | [] => .ok ⟨[]⟩
  | (_, v) :: rest =>
    if rest.all (fun p => p.2.length == v.length) then
      .ok ⟨data.map (fun p => (p.1, p.2.map Cell.rawStr))⟩
    else
      .error .valueError

/-- Method `create_dataframe`: builds the frame from the accumulator, then
coerces the allow-list columns, then normalizes the `date` column
(unconditionally), then stamps provenance. -/
def create_dataframe (gen : Nat → String) (now : PyDatetime) (data : Data) :
    Except PyErr DataFrame := do
  let df ← pdDataFrame data
  let df ← change_col_type df
  let df ← change_date_type df
  pure (add_insert_info gen now df)

/-- Append of one value to the accumulator column `k`
(`report_data[key].append(v)` on a `defaultdict(list)`): an existing
key grows at its position, a fresh key is inserted at the end. -/
def dd_append (d : Data) (k : String) (v : String) : Data :=
  if hasKey d k then
    d.map (fun p => if p.1 == k then (p.1, p.2 ++ [v]) else p)
  else
    d ++ [(k, [v])]

/-- One `for idx, key in enumerate(keys)` loop of the demux: appends
`vals[idx]` under each key, raising `IndexError` when the row has fewer
values than field names. -/
def appendValues (d : Data) : List String → List String → Nat → Except PyErr Data
  | [], _, _ => .ok d
  | k :: ks, vals, idx =>
    match vals[idx]? with
    | none => .error .indexError
    | some v => appendValues (dd_append d k v) ks vals (idx + 1)

/-- The body of the row loop in `generate_batch_report`: resolve the
current report name (`config_name_lst[config_count]`, `IndexError` when
out of range), resolve its dimension and metric lists, and unpack the
row's values positionally into the accumulator. -/
def process_row (config : Config) (names : List String) (i : Nat) (d : Data)
    (row : Row) : Except PyErr Data := do
  let name ← match names[i]? with
    | some n => Except.ok n
    | none => Except.error PyErr.indexError
  let dims ← parse_input config name "dimension"
  let mets ← parse_input config name "metric"
  let d ← appendValues d dims row.dimension_values 0
  appendValues d mets row.metric_values 0

/-- Processing of one report result at position `i`: accumulate all rows
(starting from a freshly reset accumulator) and finalize the table.
`gen`/`now` are this call's uuid draws and `datetime.now()` value. -/
def report_table (gen : Nat → String) (now : PyDatetime) (config : Config)
    (names : List String) (i : Nat) (rep : Report) : Except PyErr DataFrame := do
  let data ← rep.rows.foldlM (process_row config names i) []
  create_dataframe gen now data

/-- The demux loop of `generate_batch_report`: walks `response.reports`,
pairing report `config_count = i` with `config_name_lst[i]`; after each
report its finalized table is stored under that name (the table is
built before the name is read, matching Python's assignment order) and
the accumulator is reset.  `uuidGen i` and `clock i` are the uuid draws
and the `datetime.now()` of the i-th table-build call. -/
def build_tables (uuidGen : Nat → Nat → String) (clock : Nat → PyDatetime)
    (config : Config) (names : List String) :
    List Report → Nat → Except PyErr (List (String × DataFrame))
  | [], _ => .ok []
  | rep :: rest, i => do
    let df ← report_table (uuidGen i) (clock i) config names i rep
    let name ← match names[i]? with
      | some n => Except.ok n
      | none => Except.error PyErr.indexError
    let tables ← build_tables uuidGen clock config names rest (i + 1)
    pure ((name, df) :: tables)

/-- Method `generate_batch_report`: runs the batch request, then demuxes
the response into one finalized table per report name, in the
configuration's key order. -/
def generate_batch_report (st : GetGA4Data) (uuidGen : Nat → Nat → String)
    (clock : Nat → PyDatetime) (client : Client) (property_id : Int)
    (config : Config) : Except PyErr (List (String × DataFrame)) := do
  let response ← run_report_batch st client property_id config
  build_tables uuidGen clock config (config.map Prod.fst) response.reports 0

/-! Concrete fixtures used by the examples below: a two-report
configuration (the shape of the `__main__` example of the source), a
one-report response, deterministic uuid/clock sources, and the tables
they produce. -/

deriving instance DecidableEq for Except

/-- Example configuration with two reports, each with one dimension and
one metric. -/
def cfgW : Config :=
  [("r1", [[("dimension", ["date"])], [("metric", ["activeUsers"])]]),
   ("r2", [[("dimension", ["date"])], [("metric", ["sessions"])]])]

/-- Instance state with the default date range. -/
def stW : GetGA4Data := GetGA4Data.init none none

/-- Deterministic stand-in for the per-table `uuid.uuid4().hex` draws. -/
def genW : Nat → Nat → String := fun i j => "u" ++ toString i ++ "x" ++ toString j

/-- Deterministic stand-in for the per-table `datetime.now()` values. -/
def clkW : Nat → PyDatetime := fun i => ⟨2024, 5, 1, 12, 30, 0, i⟩

/-- A response holding one report of one row: fewer reports than the two
requests of `cfgW`. -/
def respW : Response := ⟨[⟨[⟨["20240401"], ["42"]⟩]⟩]⟩

/-- A client that always returns `respW`. -/
def clientW : Client := fun _ => respW

/-- The finalized table of report `r1` under `genW`/`clkW`. -/
def dfW : DataFrame :=
  ⟨[("date", [Cell.dtVal ⟨2024, 4, 1, 0, 0, 0, 0⟩]),
    ("activeUsers", [Cell.intVal 42]),
    ("uuid", [Cell.rawStr "u0x0"]),
    ("emitted_at", [Cell.dtVal ⟨2024, 5, 1, 12, 30, 0, 0⟩])]⟩

/-- The result mapping for `cfgW` against the one-report `respW`. -/
def mW : List (String × DataFrame) := [("r1", dfW)]

/-- The two requests assembled from `cfgW` under the default date range. -/
def reqsW : List RunReportRequest :=
  [⟨["date"], ["activeUsers"], [("2024-04-01", "2024-04-30")], 100000⟩,
   ⟨["date"], ["sessions"], [("2024-04-01", "2024-04-30")], 100000⟩]

/-- A configuration whose only report has no `date` dimension. -/
def cfgNoDateW : Config :=
  [("g1", [[("dimension", ["userGender"])], [("metric", ["activeUsers"])]])]

/-- A client returning one one-row report for `cfgNoDateW`. -/
def clientNoDateW : Client := fun _ => ⟨[⟨[⟨["male"], ["5"]⟩]⟩]⟩

/-- A configuration whose only report lacks the `metric` record. -/
def cfgBadW : Config := [("b1", [[("dimension", ["date"])]])]

/-- A response containing one zero-row report. -/
def respEmptyW : Response := ⟨[⟨[]⟩]⟩

/-- A client that always returns the zero-row response. -/
def clientEmptyW : Client := fun _ => respEmptyW

/-- A raw (all-string) frame with one non-allow-list column and two
allow-list columns. -/
def dfRawW : DataFrame :=
  ⟨[("userGender", [Cell.rawStr "male"]),
    ("sessions", [Cell.rawStr "7"]),
    ("userEngagementDuration", [Cell.rawStr "1.5"])]⟩

/-- The frame `dfRawW` after `change_col_type`. -/
def dfTypedW : DataFrame :=
  ⟨[("userGender", [Cell.rawStr "male"]),
    ("sessions", [Cell.intVal 7]),
    ("userEngagementDuration", [Cell.floatVal (mkRat 15 10)])]⟩

/-- A one-row frame awaiting provenance stamping. -/
def df1W : DataFrame := ⟨[("date", [Cell.rawStr "20240401"])]⟩

/-- The finalized frame of the accumulator `[("date", ["20240401"])]`. -/
def df8W : DataFrame :=
  ⟨[("date", [Cell.dtVal ⟨2024, 4, 1, 0, 0, 0, 0⟩]),
    ("uuid", [Cell.rawStr "u0x0"]),
    ("emitted_at", [Cell.dtVal ⟨2024, 5, 1, 12, 30, 0, 0⟩])]⟩

/-! Basic lemmas about the association-list dictionary model. -/

theorem ga4_bind_ok {ε α β : Type} (a : α) (f : α → Except ε β) :
    (Except.ok a >>= f) = f a := rfl

theorem ga4_bind_error {ε α β : Type} (e : ε) (f : α → Except ε β) :
    ((Except.error e : Except ε α) >>= f) = Except.error e := rfl

theorem hasKey_iff_mem {α : Type} (l : List (String × α)) (k : String) :
    hasKey l k = true ↔ k ∈ l.map Prod.fst := by
  unfold hasKey
  rw [List.any_eq_true]
  constructor
  · rintro ⟨p, hp, hb⟩
    exact List.mem_map.mpr ⟨p, hp, by simpa [beq_iff_eq] using hb⟩
  · intro hm
    rcases List.mem_map.mp hm with ⟨p, hp, he⟩
    exact ⟨p, hp, by simp [beq_iff_eq, he]⟩

theorem hasKey_eq_false_iff {α : Type} (l : List (String × α)) (k : String) :
    hasKey l k = false ↔ k ∉ l.map Prod.fst := by
  rw [← hasKey_iff_mem]
  cases hasKey l k <;> simp

theorem hasKey_congr {α β : Type} {l₁ : List (String × α)} {l₂ : List (String × β)}
    (h : l₁.map Prod.fst = l₂.map Prod.fst) (k : String) :
    hasKey l₁ k = hasKey l₂ k := by
  cases h₁ : hasKey l₁ k
  · rw [hasKey_eq_false_iff, h] at h₁
    exact ((hasKey_eq_false_iff l₂ k).2 h₁).symm
  · rw [hasKey_iff_mem, h] at h₁
    exact ((hasKey_iff_mem l₂ k).2 h₁).symm

theorem lookupKey_eq_none {α : Type} (l : List (String × α)) (k : String)
    (h : hasKey l k = false) : lookupKey l k = none := by
  induction l with
  | nil => rfl
  | cons p t ih =>
    simp only [hasKey, List.any_cons, Bool.or_eq_false_iff] at h
    simp only [lookupKey, h.1, Bool.false_eq_true, if_false]
    exact ih (by simpa [hasKey] using h.2)

theorem lookupKey_some_hasKey {α : Type} (l : List (String × α)) (k : String)
    {v : α} (h : lookupKey l k = some v) : hasKey l k = true := by
  by_contra hf
  rw [lookupKey_eq_none l k (by simpa using hf)] at h
  exact Option.noConfusion h

/-! Lemmas about `DataFrame.setCol`, `getCol`, `hasCol` and column names. -/

theorem lookupKey_update_self {α : Type} (l : List (String × α)) (k : String)
    (v : α) (h : hasKey l k = true) :
    lookupKey (l.map (fun p => if p.1 == k then (p.1, v) else p)) k = some v := by
  induction l with
  | nil => simp [hasKey] at h
  | cons p t ih =>
    by_cases hpk : p.1 = k
    · simp [lookupKey, hpk]
    · have hb : (p.1 == k) = false := by simp [beq_iff_eq, hpk]
      simp only [hasKey, List.any_cons, hb, Bool.false_or] at h
      simp only [List.map_cons, hb, Bool.false_eq_true, if_false, lookupKey]
      exact ih h

theorem lookupKey_update_ne {α : Type} (l : List (String × α)) (k c : String)
    (v : α) (h : c ≠ k) :
    lookupKey (l.map (fun p => if p.1 == k then (p.1, v) else p)) c =
      lookupKey l c := by
  induction l with
  | nil => rfl
  | cons p t ih =>
    cases hbk : (p.1 == k) with
    | true =>
      have hpk : p.1 = k := by simpa [beq_iff_eq] using hbk
      have hbc : (p.1 == c) = false := by
        rw [beq_eq_false_iff_ne]
        exact fun hh => h (hh.symm.trans hpk)
      simp only [List.map_cons, lookupKey, hbk, if_true, hbc,
        Bool.false_eq_true, if_false]
      exact ih
    | false =>
      simp only [List.map_cons, lookupKey, hbk, Bool.false_eq_true, if_false]
      cases hbc : (p.1 == c)
      · simp only [Bool.false_eq_true, if_false]
        exact ih
      · simp

theorem lookupKey_append_right {α : Type} (l : List (String × α)) (k : String)
    (v : α) (h : hasKey l k = false) :
    lookupKey (l ++ [(k, v)]) k = some v := by
  induction l with
  | nil => simp [lookupKey]
  | cons p t ih =>
    simp only [hasKey, List.any_cons, Bool.or_eq_false_iff] at h
    simp only [List.cons_append, lookupKey, h.1, Bool.false_eq_true, if_false]
    exact ih (by simpa [hasKey] using h.2)

theorem lookupKey_append_ne {α : Type} (l : List (String × α)) (k c : String)
    (v : α) (h : c ≠ k) :
    lookupKey (l ++ [(k, v)]) c = lookupKey l c := by
  induction l with
  | nil =>
    have hkc : (k == c) = false := by
      rw [beq_eq_false_iff_ne]
      exact fun hh => h hh.symm
    simp [lookupKey, hkc]
  | cons p t ih =>
    cases hbc : (p.1 == c)
    · simp only [List.cons_append, lookupKey, hbc, Bool.false_eq_true, if_false]
      exact ih
    · simp only [List.cons_append, lookupKey, hbc, if_true]

theorem map_fst_update {α : Type} (l : List (String × α)) (k : String) (v : α) :
    (l.map (fun p => if p.1 == k then (p.1, v) else p)).map Prod.fst =
      l.map Prod.fst := by
  induction l with
  | nil => rfl
  | cons p t ih =>
    by_cases hpk : p.1 = k <;> simp_all [beq_iff_eq]

theorem getCol_setCol_self (df : DataFrame) (k : String) (v : List Cell) :
    (df.setCol k v).getCol k = some v := by
  unfold DataFrame.setCol
  cases h : df.hasCol k
  · rw [if_neg (by simp)]
    exact lookupKey_append_right df.cols k v h
  · rw [if_pos rfl]
    exact lookupKey_update_self df.cols k v h

theorem getCol_setCol_ne (df : DataFrame) (k c : String) (v : List Cell)
    (h : c ≠ k) : (df.setCol k v).getCol c = df.getCol c := by
  unfold DataFrame.setCol
  cases hk : df.hasCol k
  · rw [if_neg (by simp)]
    exact lookupKey_append_ne df.cols k c v h
  · rw [if_pos rfl]
    exact lookupKey_update_ne df.cols k c v h

theorem colNames_setCol_mem (df : DataFrame) (k : String) (v : List Cell)
    (h : df.hasCol k = true) :
    (df.setCol k v).cols.map Prod.fst = df.cols.map Prod.fst := by
  unfold DataFrame.setCol
  rw [if_pos h]
  exact map_fst_update df.cols k v

theorem colNames_setCol_new (df : DataFrame) (k : String) (v : List Cell)
    (h : df.hasCol k = false) :
    (df.setCol k v).cols.map Prod.fst = df.cols.map Prod.fst ++ [k] := by
  unfold DataFrame.setCol
  rw [if_neg (by simp [h])]
  simp

theorem hasCol_setCol_ne (df : DataFrame) (k c : String) (v : List Cell)
    (h : c ≠ k) : (df.setCol k v).hasCol c = df.hasCol c := by
  unfold DataFrame.setCol
  cases hk : df.hasCol k
  · rw [if_neg (by simp)]
    have hkc : (k == c) = false := by
      rw [beq_eq_false_iff_ne]
      exact fun hh => h hh.symm
    simp [DataFrame.hasCol, hasKey, List.any_append, hkc]
  · rw [if_pos rfl]
    exact hasKey_congr (map_fst_update df.cols k v) c

/-! Lemmas about the accumulator `dd_append` / `appendValues`:
the key sequence of the accumulator after unpacking rows. -/

theorem dd_append_fst_new (d : Data) (k : String) (v : String)
    (h : hasKey d k = false) :
    (dd_append d k v).map Prod.fst = d.map Prod.fst ++ [k] := by
  unfold dd_append
  rw [if_neg (by simp [h])]
  simp

theorem map_fst_grow (l : List (String × List String)) (k : String)
    (v : String) :
    (l.map (fun p => if p.1 == k then (p.1, p.2 ++ [v]) else p)).map Prod.fst =
      l.map Prod.fst := by
  induction l with
  | nil => rfl
  | cons p t ih =>
    cases hpk : (p.1 == k) <;> simp_all

theorem dd_append_fst_mem (d : Data) (k : String) (v : String)
    (h : hasKey d k = true) :
    (dd_append d k v).map Prod.fst = d.map Prod.fst := by
  unfold dd_append
  rw [if_pos h]
  exact map_fst_grow d k v

theorem appendValues_fst_new (ks : List String) (d : Data) (vals : List String)
    (idx : Nat) (d' : Data) (hnd : ks.Nodup)
    (hfresh : ∀ k ∈ ks, hasKey d k = false)
    (h : appendValues d ks vals idx = .ok d') :
    d'.map Prod.fst = d.map Prod.fst ++ ks := by
  induction ks generalizing d idx with
  | nil =>
    simp only [appendValues] at h
    cases h
    simp
  | cons k ks ih =>
    simp only [appendValues] at h
    cases hv : vals[idx]? with
    | none => rw [hv] at h; exact absurd h (by simp)
    | some v =>
      rw [hv] at h
      have hk : hasKey d k = false := hfresh k (by simp)
      have hstep := dd_append_fst_new d k v hk
      have hfresh' : ∀ k' ∈ ks, hasKey (dd_append d k v) k' = false := by
        intro k' hk'
        rw [hasKey_eq_false_iff, hstep]
        have h₁ : k' ∉ d.map Prod.fst :=
          (hasKey_eq_false_iff d k').1 (hfresh k' (by simp [hk']))
        have h₂ : k' ≠ k := by
          intro he
          exact (List.nodup_cons.1 hnd).1 (he ▸ hk')
        simp [h₁, h₂]
      have := ih (dd_append d k v) (idx + 1) (List.nodup_cons.1 hnd).2 hfresh' h
      rw [this, hstep]
      simp

theorem appendValues_fst_mem (ks : List String) (d : Data) (vals : List String)
    (idx : Nat) (d' : Data)
    (hmem : ∀ k ∈ ks, hasKey d k = true)
    (h : appendValues d ks vals idx = .ok d') :
    d'.map Prod.fst = d.map Prod.fst := by
  induction ks generalizing d idx with
  | nil =>
    simp only [appendValues] at h
    cases h
    rfl
  | cons k ks ih =>
    simp only [appendValues] at h
    cases hv : vals[idx]? with
    | none => rw [hv] at h; exact absurd h (by simp)
    | some v =>
      rw [hv] at h
      have hstep := dd_append_fst_mem d k v (hmem k (by simp))
      have hmem' : ∀ k' ∈ ks, hasKey (dd_append d k v) k' = true := by
        intro k' hk'
        rw [hasKey_iff_mem, hstep, ← hasKey_iff_mem]
        exact hmem k' (by simp [hk'])
      rw [ih (dd_append d k v) (idx + 1) hmem' h, hstep]

/-- Keys of the accumulator after the body of the row loop, first row:
starting empty, the keys are exactly `dims ++ mets`. -/
theorem process_row_fst_first (config : Config) (names : List String) (i : Nat)
    (row : Row) (name : String) (dims mets : List String) (d' : Data)
    (hn : names[i]? = some name)
    (hd : parse_input config name "dimension" = .ok dims)
    (hm : parse_input config name "metric" = .ok mets)
    (hnd : (dims ++ mets).Nodup)
    (h : process_row config names i [] row = .ok d') :
    d'.map Prod.fst = dims ++ mets := by
  unfold process_row at h
  rw [hn] at h
  simp only [ga4_bind_ok, hd, hm] at h
  cases hA : appendValues [] dims row.dimension_values 0 with
  | error e => rw [hA] at h; exact absurd h (by simp [ga4_bind_error])
  | ok d₁ =>
    rw [hA] at h
    simp only [ga4_bind_ok] at h
    have h₁ : d₁.map Prod.fst = dims :=
      appendValues_fst_new dims [] row.dimension_values 0 d₁
        (List.nodup_append.1 hnd).1 (by intro k _; rfl) hA
    have hfresh : ∀ k ∈ mets, hasKey d₁ k = false := by
      intro k hk
      rw [hasKey_eq_false_iff, h₁]
      exact fun hmem => (List.disjoint_of_nodup_append hnd) hmem hk
    have h₂ := appendValues_fst_new mets d₁ row.metric_values 0 d'
      (List.nodup_append.1 hnd).2.1 hfresh h
    rw [h₂, h₁]

/-- Keys of the accumulator after the body of the row loop, later rows:
once the keys are `dims ++ mets` they stay `dims ++ mets`. -/
theorem process_row_fst_keep (config : Config) (names : List String) (i : Nat)
    (row : Row) (name : String) (dims mets : List String) (d d' : Data)
    (hn : names[i]? = some name)
    (hd : parse_input config name "dimension" = .ok dims)
    (hm : parse_input config name "metric" = .ok mets)
    (hkeys : d.map Prod.fst = dims ++ mets)
    (h : process_row config names i d row = .ok d') :
    d'.map Prod.fst = dims ++ mets := by
  unfold process_row at h
  rw [hn] at h
  simp only [ga4_bind_ok, hd, hm] at h
  cases hA : appendValues d dims row.dimension_values 0 with
  | error e => rw [hA] at h; exact absurd h (by simp [ga4_bind_error])
  | ok d₁ =>
    rw [hA] at h
    simp only [ga4_bind_ok] at h
    have hmemd : ∀ k ∈ dims, hasKey d k = true := by
      intro k hk
      rw [hasKey_iff_mem, hkeys]
      exact List.mem_append_left _ hk
    have h₁ : d₁.map Prod.fst = d.map Prod.fst :=
      appendValues_fst_mem dims d row.dimension_values 0 d₁ hmemd hA
    have hmemm : ∀ k ∈ mets, hasKey d₁ k = true := by
      intro k hk
      rw [hasKey_iff_mem, h₁, hkeys]
      exact List.mem_append_right _ hk
    have h₂ : d'.map Prod.fst = d₁.map Prod.fst :=
      appendValues_fst_mem mets d₁ row.metric_values 0 d' hmemm h
    rw [h₂, h₁, hkeys]

/-- Keys of the accumulator after folding the whole row list, preserved
from an accumulator that already has keys `dims ++ mets`. -/
theorem foldlM_process_row_fst (config : Config) (names : List String) (i : Nat)
    (name : String) (dims mets : List String)
    (hn : names[i]? = some name)
    (hd : parse_input config name "dimension" = .ok dims)
    (hm : parse_input config name "metric" = .ok mets) :
    ∀ (rows : List Row) (d d' : Data),
      d.map Prod.fst = dims ++ mets →
      rows.foldlM (process_row config names i) d = .ok d' →
      d'.map Prod.fst = dims ++ mets := by
  intro rows
  induction rows with
  | nil =>
    intro d d' hkeys h
    simp only [List.foldlM_nil] at h
    cases h
    exact hkeys
  | cons r rest ih =>
    intro d d' hkeys h
    simp only [List.foldlM_cons] at h
    cases hr : process_row config names i d r with
    | error e => rw [hr] at h; exact absurd h (by simp [ga4_bind_error])
    | ok d₁ =>
      rw [hr] at h
      simp only [ga4_bind_ok] at h
      exact ih d₁ d'
        (process_row_fst_keep config names i r name dims mets d d₁
          hn hd hm hkeys hr) h

/-- Keys of the accumulator after folding a nonempty row list from the
freshly reset accumulator: exactly `dims ++ mets`. -/
theorem foldlM_process_row_fst_of_ne (config : Config) (names : List String)
    (i : Nat) (name : String) (dims mets : List String) (rows : List Row)
    (d' : Data)
    (hn : names[i]? = some name)
    (hd : parse_input config name "dimension" = .ok dims)
    (hm : parse_input config name "metric" = .ok mets)
    (hnd : (dims ++ mets).Nodup)
    (hne : rows ≠ [])
    (h : rows.foldlM (process_row config names i) [] = .ok d') :
    d'.map Prod.fst = dims ++ mets := by
  cases rows with
  | nil => exact absurd rfl hne
  | cons r rest =>
    simp only [List.foldlM_cons] at h
    cases hr : process_row config names i [] r with
    | error e => rw [hr] at h; exact absurd h (by simp [ga4_bind_error])
    | ok d₁ =>
      rw [hr] at h
      simp only [ga4_bind_ok] at h
      exact foldlM_process_row_fst config names i name dims mets hn hd hm
        rest d₁ d'
        (process_row_fst_first config names i r name dims mets d₁
          hn hd hm hnd hr) h

/-! Lemmas about the finalization pipeline: column names. -/

theorem pdDataFrame_names (data : Data) (df : DataFrame)
    (h : pdDataFrame data = .ok df) : df.cols.map Prod.fst = data.map Prod.fst := by
  unfold pdDataFrame at h
  split at h
  · cases h
    rfl
  · split at h
    · cases h
      simp
    · exact absurd h (by simp)

theorem coerceStep_names (d d' : DataFrame) (p : String × Dtype)
    (h : coerceStep d p = .ok d') : d'.cols.map Prod.fst = d.cols.map Prod.fst := by
  unfold coerceStep at h
  cases hc : d.hasCol p.1
  · rw [hc] at h
    rw [if_neg (by simp)] at h
    cases h
    rfl
  · rw [hc] at h
    rw [if_pos rfl] at h
    cases ha : astype ((d.getCol p.1).getD []) p.2 with
    | error e => rw [ha] at h; exact absurd h (by simp [ga4_bind_error])
    | ok col =>
      rw [ha] at h
      simp only [ga4_bind_ok] at h
      cases h
      exact colNames_setCol_mem d p.1 col hc

theorem coerceStep_getCol_ne (d d' : DataFrame) (p : String × Dtype)
    (c : String) (hne : p.1 ≠ c) (h : coerceStep d p = .ok d') :
    d'.getCol c = d.getCol c := by
  unfold coerceStep at h
  cases hc : d.hasCol p.1
  · rw [hc] at h
    rw [if_neg (by simp)] at h
    cases h
    rfl
  · rw [hc] at h
    rw [if_pos rfl] at h
    cases ha : astype ((d.getCol p.1).getD []) p.2 with
    | error e => rw [ha] at h; exact absurd h (by simp [ga4_bind_error])
    | ok col =>
      rw [ha] at h
      simp only [ga4_bind_ok] at h
      cases h
      exact getCol_setCol_ne d p.1 c col (fun hh => hne hh.symm)

theorem lookupKey_isSome_of_hasKey {α : Type} (l : List (String × α))
    (k : String) (h : hasKey l k = true) : ∃ v, lookupKey l k = some v := by
  induction l with
  | nil => simp [hasKey] at h
  | cons p t ih =>
    cases hpk : (p.1 == k)
    · simp only [hasKey, List.any_cons, hpk, Bool.false_or] at h
      simp only [lookupKey, hpk, Bool.false_eq_true, if_false]
      exact ih h
    · exact ⟨p.2, by simp [lookupKey, hpk]⟩

theorem coerceStep_getCol_self (d d' : DataFrame) (p : String × Dtype)
    (hc : d.hasCol p.1 = true) (h : coerceStep d p = .ok d') :
    ∃ col col', d.getCol p.1 = some col ∧ astype col p.2 = .ok col' ∧
      d'.getCol p.1 = some col' := by
  unfold coerceStep at h
  rw [hc, if_pos rfl] at h
  obtain ⟨col, hcol⟩ := lookupKey_isSome_of_hasKey d.cols p.1 hc
  have hcolg : d.getCol p.1 = some col := hcol
  cases ha : astype ((d.getCol p.1).getD []) p.2 with
  | error e => rw [ha] at h; exact absurd h (by simp [ga4_bind_error])
  | ok col' =>
    rw [ha] at h
    simp only [ga4_bind_ok] at h
    cases h
    refine ⟨col, col', hcolg, ?_, getCol_setCol_self d p.1 col'⟩
    rw [hcolg] at ha
    simpa using ha

theorem foldlM_coerceStep_getCol_ne (cts : List (String × Dtype)) :
    ∀ (d d' : DataFrame) (c : String), (∀ p ∈ cts, p.1 ≠ c) →
      cts.foldlM coerceStep d = .ok d' → d'.getCol c = d.getCol c := by
  induction cts with
  | nil =>
    intro d d' c _ h
    simp only [List.foldlM_nil] at h
    cases h
    rfl
  | cons p rest ih =>
    intro d d' c hni h
    simp only [List.foldlM_cons] at h
    cases hs : coerceStep d p with
    | error e => rw [hs] at h; exact absurd h (by simp [ga4_bind_error])
    | ok d₁ =>
      rw [hs] at h
      simp only [ga4_bind_ok] at h
      rw [ih d₁ d' c (fun q hq => hni q (by simp [hq])) h]
      exact coerceStep_getCol_ne d d₁ p c (hni p (by simp)) hs

theorem foldlM_coerceStep_names (cts : List (String × Dtype)) :
    ∀ (d d' : DataFrame), cts.foldlM coerceStep d = .ok d' →
      d'.cols.map Prod.fst = d.cols.map Prod.fst := by
  induction cts with
  | nil =>
    intro d d' h
    simp only [List.foldlM_nil] at h
    cases h
    rfl
  | cons p rest ih =>
    intro d d' h
    simp only [List.foldlM_cons] at h
    cases hs : coerceStep d p with
    | error e => rw [hs] at h; exact absurd h (by simp [ga4_bind_error])
    | ok d₁ =>
      rw [hs] at h
      simp only [ga4_bind_ok] at h
      rw [ih d₁ d' h]
      exact coerceStep_names d d₁ p hs

theorem foldlM_coerceStep_getCol_mem (cts : List (String × Dtype)) :
    ∀ (d d' : DataFrame) (c : String) (dt : Dtype), (c, dt) ∈ cts →
      (cts.map Prod.fst).Nodup → d.hasCol c = true →
      cts.foldlM coerceStep d = .ok d' →
      ∃ col col', d.getCol c = some col ∧ astype col dt = .ok col' ∧
        d'.getCol c = some col' := by
  induction cts with
  | nil =>
    intro d d' c dt hmem
    exact absurd hmem (by simp)
  | cons p rest ih =>
    intro d d' c dt hmem hnd hc h
    simp only [List.foldlM_cons] at h
    cases hs : coerceStep d p with
    | error e => rw [hs] at h; exact absurd h (by simp [ga4_bind_error])
    | ok d₁ =>
      rw [hs] at h
      simp only [ga4_bind_ok] at h
      rcases List.mem_cons.1 hmem with heq | hrest
      · have hp1 : p.1 = c := by rw [← heq]
        have hp2 : p.2 = dt := by rw [← heq]
        obtain ⟨col, col', hg, ha, hg'⟩ :=
          coerceStep_getCol_self d d₁ p (hp1 ▸ hc) hs
        refine ⟨col, col', hp1 ▸ hg, hp2 ▸ ha, ?_⟩
        have hni : ∀ q ∈ rest, q.1 ≠ c := by
          intro q hq he
          have : p.1 ∈ rest.map Prod.fst := by
            rw [hp1, ← he]
            exact List.mem_map_of_mem Prod.fst hq
          exact (List.nodup_cons.1 hnd).1 this
        rw [foldlM_coerceStep_getCol_ne rest d₁ d' c hni h, ← hp1, hg']
      · have hp1 : p.1 ≠ c := by
          intro he
          have : p.1 ∈ rest.map Prod.fst := by
            rw [he]
            exact List.mem_map_of_mem Prod.fst hrest
          exact (List.nodup_cons.1 hnd).1 this
        have hc₁ : d₁.hasCol c = true := by
          unfold DataFrame.hasCol
          rw [hasKey_congr (coerceStep_names d d₁ p hs) c]
          exact hc
        obtain ⟨col, col', hg, ha, hg'⟩ :=
          ih d₁ d' c dt hrest (List.nodup_cons.1 hnd).2 hc₁ h
        exact ⟨col, col', by
          rw [← coerceStep_getCol_ne d d₁ p c hp1 hs]
          exact hg, ha, hg'⟩

theorem foldlM_coerceStep_id (cts : List (String × Dtype)) :
    ∀ (d : DataFrame), (∀ p ∈ cts, d.hasCol p.1 = false) →
      cts.foldlM coerceStep d = .ok d := by
  induction cts with
  | nil =>
    intro d _
    rfl
  | cons p rest ih =>
    intro d habs
    have hs : coerceStep d p = .ok d := by
      unfold coerceStep
      rw [habs p (by simp)]
      rw [if_neg (by simp)]
      rfl
    simp only [List.foldlM_cons, hs, ga4_bind_ok]
    exact ih d (fun q hq => habs q (by simp [hq]))

/-! Lemmas about `change_date_type` and `add_insert_info`. -/

theorem change_date_type_parts (df df' : DataFrame)
    (h : change_date_type df = .ok df') :
    ∃ col parsed, df.getCol "date" = some col ∧
      col.mapM toDatetimeCell = .ok parsed ∧
      df' = df.setCol "date" (parsed.map truncateToMidnight) := by
  unfold change_date_type at h
  split at h
  · exact absurd h (by simp)
  · next col heq =>
    cases hp : col.mapM toDatetimeCell with
    | error e => rw [hp] at h; exact absurd h (by simp [ga4_bind_error])
    | ok parsed =>
      rw [hp] at h
      simp only [ga4_bind_ok] at h
      cases h
      exact ⟨col, parsed, heq, hp, rfl⟩

theorem change_date_type_names (df df' : DataFrame)
    (h : change_date_type df = .ok df') :
    df'.cols.map Prod.fst = df.cols.map Prod.fst := by
  obtain ⟨col, parsed, hg, _, hdf⟩ := change_date_type_parts df df' h
  rw [hdf]
  exact colNames_setCol_mem df "date" _ (lookupKey_some_hasKey df.cols "date" hg)

theorem add_insert_info_names (gen : Nat → String) (now : PyDatetime)
    (df : DataFrame) (huuid : df.hasCol "uuid" = false)
    (hem : df.hasCol "emitted_at" = false) :
    (add_insert_info gen now df).cols.map Prod.fst =
      df.cols.map Prod.fst ++ ["uuid", "emitted_at"] := by
  unfold add_insert_info
  have h₁ := colNames_setCol_new df "uuid"
    ((List.range df.nrows).map (fun i => Cell.rawStr (gen i))) huuid
  have h₂ : (df.setCol "uuid"
      ((List.range df.nrows).map (fun i => Cell.rawStr (gen i)))).hasCol
        "emitted_at" = false := by
    unfold DataFrame.hasCol
    rw [hasKey_eq_false_iff, h₁]
    intro hmem
    rcases List.mem_append.1 hmem with hl | hr
    · exact absurd ((hasKey_iff_mem df.cols "emitted_at").2 hl)
        (by simp [show hasKey df.cols "emitted_at" = false from hem])
    · simp at hr
  rw [colNames_setCol_new _ "emitted_at" _ h₂, h₁]
  simp

theorem add_insert_info_getCol_uuid (gen : Nat → String) (now : PyDatetime)
    (df : DataFrame) :
    (add_insert_info gen now df).getCol "uuid" =
      some ((List.range df.nrows).map (fun i => Cell.rawStr (gen i))) := by
  unfold add_insert_info
  rw [getCol_setCol_ne _ "emitted_at" "uuid" _ (by decide)]
  exact getCol_setCol_self df "uuid" _

theorem add_insert_info_getCol_emitted (gen : Nat → String) (now : PyDatetime)
    (df : DataFrame) :
    (add_insert_info gen now df).getCol "emitted_at" =
      some (List.replicate df.nrows (Cell.dtVal now)) := by
  unfold add_insert_info
  exact getCol_setCol_self _ "emitted_at" _

theorem add_insert_info_getCol_ne (gen : Nat → String) (now : PyDatetime)
    (df : DataFrame) (c : String) (h₁ : c ≠ "uuid") (h₂ : c ≠ "emitted_at") :
    (add_insert_info gen now df).getCol c = df.getCol c := by
  unfold add_insert_info
  rw [getCol_setCol_ne _ "emitted_at" c _ h₂]
  exact getCol_setCol_ne df "uuid" c _ h₁

theorem mapM_ok_mem {α β : Type} (f : α → Except PyErr β) :
    ∀ (l : List α) (l' : List β), l.mapM f = .ok l' →
      ∀ b ∈ l', ∃ a ∈ l, f a = .ok b := by
  intro l
  induction l with
  | nil =>
    intro l' h b hb
    simp only [List.mapM_nil] at h
    cases h
    simp at hb
  | cons a t ih =>
    intro l' h b hb
    simp only [List.mapM_cons] at h
    cases hfa : f a with
    | error e => rw [hfa] at h; exact absurd h (by simp [ga4_bind_error])
    | ok b₀ =>
      rw [hfa] at h
      simp only [ga4_bind_ok] at h
      cases ht : t.mapM f with
      | error e => rw [ht] at h; exact absurd h (by simp [ga4_bind_error])
      | ok bs =>
        rw [ht] at h
        simp only [ga4_bind_ok] at h
        cases h
        rcases List.mem_cons.1 hb with rfl | hbs
        · exact ⟨a, by simp, hfa⟩
        · obtain ⟨a', ha', hfa'⟩ := ih bs ht b hbs
          exact ⟨a', by simp [ha'], hfa'⟩

/-! Lemmas about `create_dataframe`, `report_table` and `build_tables`. -/

theorem create_dataframe_parts (gen : Nat → String) (now : PyDatetime)
    (data : Data) (df : DataFrame) (h : create_dataframe gen now data = .ok df) :
    ∃ df₀ df₁ df₂, pdDataFrame data = .ok df₀ ∧ change_col_type df₀ = .ok df₁ ∧
      change_date_type df₁ = .ok df₂ ∧ df = add_insert_info gen now df₂ := by
  unfold create_dataframe at h
  cases h₀ : pdDataFrame data with
  | error e => rw [h₀] at h; exact absurd h (by simp [ga4_bind_error])
  | ok df₀ =>
    rw [h₀] at h
    simp only [ga4_bind_ok] at h
    cases h₁ : change_col_type df₀ with
    | error e => rw [h₁] at h; exact absurd h (by simp [ga4_bind_error])
    | ok df₁ =>
      rw [h₁] at h
      simp only [ga4_bind_ok] at h
      cases h₂ : change_date_type df₁ with
      | error e => rw [h₂] at h; exact absurd h (by simp [ga4_bind_error])
      | ok df₂ =>
        rw [h₂] at h
        simp only [ga4_bind_ok] at h
        have hdf : df = add_insert_info gen now df₂ := (Except.ok.inj h).symm
        exact ⟨df₀, df₁, df₂, rfl, h₁, h₂, hdf⟩

/-- Finalizing the empty accumulator (a zero-row report) always raises the
missing-`date`-column `KeyError`. -/
theorem create_dataframe_nil (gen : Nat → String) (now : PyDatetime) :
    create_dataframe gen now [] = .error .keyError := rfl

/-- Column names of a successfully finalized report table: the dimensions,
then the metrics, then the two provenance columns. -/
theorem report_table_names (gen : Nat → String) (now : PyDatetime)
    (config : Config) (names : List String) (i : Nat) (rep : Report)
    (name : String) (dims mets : List String) (df : DataFrame)
    (hn : names[i]? = some name)
    (hd : parse_input config name "dimension" = .ok dims)
    (hm : parse_input config name "metric" = .ok mets)
    (hnd : (dims ++ mets ++ ["uuid", "emitted_at"]).Nodup)
    (h : report_table gen now config names i rep = .ok df) :
    df.cols.map Prod.fst = dims ++ mets ++ ["uuid", "emitted_at"] := by
  unfold report_table at h
  cases hf : rep.rows.foldlM (process_row config names i) [] with
  | error e => rw [hf] at h; exact absurd h (by simp [ga4_bind_error])
  | ok data =>
    rw [hf] at h
    simp only [ga4_bind_ok] at h
    have hne : rep.rows ≠ [] := by
      intro hrows
      rw [hrows] at hf
      simp only [List.foldlM_nil] at hf
      cases hf
      rw [create_dataframe_nil] at h
      exact absurd h (by simp)
    have hdm : (dims ++ mets).Nodup := (List.nodup_append.1 hnd).1
    have hdata : data.map Prod.fst = dims ++ mets :=
      foldlM_process_row_fst_of_ne config names i name dims mets rep.rows data
        hn hd hm hdm hne hf
    obtain ⟨df₀, df₁, df₂, h₀, h₁, h₂, hdf⟩ :=
      create_dataframe_parts gen now data df h
    have hn₀ : df₀.cols.map Prod.fst = dims ++ mets := by
      rw [pdDataFrame_names data df₀ h₀, hdata]
    have hn₁ : df₁.cols.map Prod.fst = dims ++ mets := by
      rw [show change_col_type df₀ = List.foldlM coerceStep df₀ column_types
            from rfl] at h₁
      rw [foldlM_coerceStep_names column_types df₀ df₁ h₁, hn₀]
    have hn₂ : df₂.cols.map Prod.fst = dims ++ mets := by
      rw [change_date_type_names df₁ df₂ h₂, hn₁]
    have hdisj := List.disjoint_of_nodup_append hnd
    have huuid : df₂.hasCol "uuid" = false := by
      unfold DataFrame.hasCol
      rw [hasKey_eq_false_iff, hn₂]
      intro hmem
      exact hdisj hmem (by simp)
    have hem : df₂.hasCol "emitted_at" = false := by
      unfold DataFrame.hasCol
      rw [hasKey_eq_false_iff, hn₂]
      intro hmem
      exact hdisj hmem (by simp)
    rw [hdf, add_insert_info_names gen now df₂ huuid hem, hn₂,
      List.append_assoc]

/-- A report with zero rows makes the demux loop fail with the
missing-`date` `KeyError` when it is the next report processed. -/
theorem build_tables_head_empty (uuidGen : Nat → Nat → String)
    (clock : Nat → PyDatetime) (config : Config) (names : List String)
    (rep : Report) (rest : List Report) (i : Nat) (hrows : rep.rows = []) :
    build_tables uuidGen clock config names (rep :: rest) i =
      .error .keyError := by
  have hrt : report_table (uuidGen i) (clock i) config names i rep =
      .error .keyError := by
    unfold report_table
    rw [hrows]
    simp only [List.foldlM_nil, ga4_bind_ok]
    exact create_dataframe_nil (uuidGen i) (clock i)
  unfold build_tables
  rw [hrt]
  rfl

/-- A report with zero rows anywhere in the response makes the whole demux
loop fail. -/
theorem build_tables_mem_empty (uuidGen : Nat → Nat → String)
    (clock : Nat → PyDatetime) (config : Config) (names : List String) :
    ∀ (reports : List Report) (i : Nat) (rep : Report), rep ∈ reports →
      rep.rows = [] →
      ∃ e, build_tables uuidGen clock config names reports i = .error e := by
  intro reports
  induction reports with
  | nil =>
    intro i rep hmem
    exact absurd hmem (by simp)
  | cons r rest ih =>
    intro i rep hmem hrows
    rcases List.mem_cons.1 hmem with rfl | hrest
    · exact ⟨.keyError,
        build_tables_head_empty uuidGen clock config names rep rest i hrows⟩
    · cases hrt : report_table (uuidGen i) (clock i) config names i r with
      | error e =>
        refine ⟨e, ?_⟩
        unfold build_tables
        rw [hrt]
        rfl
      | ok df =>
        cases hn : names[i]? with
        | none =>
          refine ⟨.indexError, ?_⟩
          unfold build_tables
          rw [hrt]
          simp only [ga4_bind_ok, hn]
          rfl
        | some name =>
          obtain ⟨e, he⟩ := ih (i + 1) rep hrest hrows
          refine ⟨e, ?_⟩
          unfold build_tables
          rw [hrt]
          simp only [ga4_bind_ok, hn, he]
          rfl

/-- The report names of the result mapping are the first `k` configuration
keys starting at position `i`, where `k` is the number of reports. -/
theorem build_tables_fst (uuidGen : Nat → Nat → String)
    (clock : Nat → PyDatetime) (config : Config) (names : List String) :
    ∀ (reports : List Report) (i : Nat) (m : List (String × DataFrame)),
      build_tables uuidGen clock config names reports i = .ok m →
      m.map Prod.fst = (names.drop i).take reports.length := by
  intro reports
  induction reports with
  | nil =>
    intro i m h
    cases h
    simp
  | cons rep rest ih =>
    intro i m h
    unfold build_tables at h
    cases hrt : report_table (uuidGen i) (clock i) config names i rep with
    | error e => rw [hrt] at h; exact absurd h (by simp [ga4_bind_error])
    | ok df =>
      rw [hrt] at h
      simp only [ga4_bind_ok] at h
      cases hn : names[i]? with
      | none => rw [hn] at h; exact absurd h (by simp [ga4_bind_error])
      | some name =>
        rw [hn] at h
        simp only [ga4_bind_ok] at h
        cases ht : build_tables uuidGen clock config names rest (i + 1) with
        | error e => rw [ht] at h; exact absurd h (by simp [ga4_bind_error])
        | ok m' =>
          rw [ht] at h
          simp only [ga4_bind_ok] at h
          cases h
          obtain ⟨hlt, hge⟩ := List.getElem?_eq_some.1 hn
          rw [List.drop_eq_getElem_cons hlt, hge]
          simp only [List.map_cons, List.length_cons, List.take_succ_cons]
          rw [ih (i + 1) m' ht]

/-- Every entry of the result mapping comes from one response report at the
entry's configuration position. -/
theorem build_tables_mem_table (uuidGen : Nat → Nat → String)
    (clock : Nat → PyDatetime) (config : Config) (names : List String) :
    ∀ (reports : List Report) (i : Nat) (m : List (String × DataFrame)),
      build_tables uuidGen clock config names reports i = .ok m →
      ∀ p ∈ m, ∃ j rep, names[j]? = some p.1 ∧ rep ∈ reports ∧
        report_table (uuidGen j) (clock j) config names j rep = .ok p.2 := by
  intro reports
  induction reports with
  | nil =>
    intro i m h p hp
    cases h
    simp at hp
  | cons rep rest ih =>
    intro i m h p hp
    unfold build_tables at h
    cases hrt : report_table (uuidGen i) (clock i) config names i rep with
    | error e => rw [hrt] at h; exact absurd h (by simp [ga4_bind_error])
    | ok df =>
      rw [hrt] at h
      simp only [ga4_bind_ok] at h
      cases hn : names[i]? with
      | none => rw [hn] at h; exact absurd h (by simp [ga4_bind_error])
      | some name =>
        rw [hn] at h
        simp only [ga4_bind_ok] at h
        cases ht : build_tables uuidGen clock config names rest (i + 1) with
        | error e => rw [ht] at h; exact absurd h (by simp [ga4_bind_error])
        | ok m' =>
          rw [ht] at h
          simp only [ga4_bind_ok] at h
          cases h
          rcases List.mem_cons.1 hp with rfl | hp'
          · exact ⟨i, rep, hn, by simp, hrt⟩
          · obtain ⟨j, rep', hn', hmem', hrt'⟩ := ih (i + 1) m' ht p hp'
            exact ⟨j, rep', hn', by simp [hmem'], hrt'⟩

/-- Request assembly succeeds only when every report name resolves both
field kinds. -/
theorem build_request_list_parse_ok (st : GetGA4Data) (config : Config) :
    ∀ (names : List String) (reqs : List RunReportRequest),
      build_request_list st config names = .ok reqs →
      ∀ n ∈ names, ∃ dims mets, parse_input config n "dimension" = .ok dims ∧
        parse_input config n "metric" = .ok mets := by
  intro names
  induction names with
  | nil =>
    intro reqs _ n hn
    simp at hn
  | cons name rest ih =>
    intro reqs h n hn
    unfold build_request_list at h
    cases hd : parse_input config name "dimension" with
    | error e => rw [hd] at h; exact absurd h (by simp [ga4_bind_error])
    | ok dims =>
      rw [hd] at h
      simp only [ga4_bind_ok] at h
      cases hm : parse_input config name "metric" with
      | error e => rw [hm] at h; exact absurd h (by simp [ga4_bind_error])
      | ok mets =>
        rw [hm] at h
        simp only [ga4_bind_ok] at h
        cases ht : build_request_list st config rest with
        | error e => rw [ht] at h; exact absurd h (by simp [ga4_bind_error])
        | ok reqs' =>
          rcases List.mem_cons.1 hn with rfl | hrest
          · exact ⟨dims, mets, hd, hm⟩
          · exact ih reqs' ht n hrest

/-! The claims. -/

/-- C3: for every well-formed configuration containing report name `name`
with exactly one field-group record keyed by the requested kind,
`parse_input config name "dimension"` and `parse_input config name
"metric"` return exactly the field-name lists supplied in the
configuration for that report, in the original order.  (The embedding is
purely functional, so the configuration is not modified.) -/
theorem c3_parse_input_returns_supplied_lists (config : Config) (name : String)
    (records : List Record) (rd rm : Record) (dims mets : List String)
    (hname : lookupKey config name = some records)
    (hdr : records.filter (fun r => hasKey r "dimension") = [rd])
    (hdv : lookupKey rd "dimension" = some dims)
    (hmr : records.filter (fun r => hasKey r "metric") = [rm])
    (hmv : lookupKey rm "metric" = some mets) :
    parse_input config name "dimension" = .ok dims ∧
    parse_input config name "metric" = .ok mets := by
  constructor
  · simp [parse_input, hname, hdr, hdv]
  · simp [parse_input, hname, hmr, hmv]

/-- Witness for C3 at the concrete configuration `cfgW`, report `r1`. -/
theorem c3_witness :
    parse_input cfgW "r1" "dimension" = .ok ["date"] ∧
    parse_input cfgW "r1" "metric" = .ok ["activeUsers"] :=
  c3_parse_input_returns_supplied_lists cfgW "r1"
    [[("dimension", ["date"])], [("metric", ["activeUsers"])]]
    [("dimension", ["date"])] [("metric", ["activeUsers"])]
    ["date"] ["activeUsers"]
    (by decide) (by decide) (by decide) (by decide) (by decide)

/-- C4: every constructed report request carries the dimensions in the
given order, the metrics in the given order, a single date range, and a
row limit of exactly 100000; and every request of one assembled batch
carries the same (instance-wide) date range. -/
theorem c4_request_shape_and_uniform_date_range :
    (∀ (st : GetGA4Data) (dimension_lst metric_lst : List String),
      request_parameters st dimension_lst metric_lst =
        { dimensions := dimension_lst, metrics := metric_lst,
          date_ranges := [(st.start_date, st.end_date)], limit := 100000 }) ∧
    (∀ (st : GetGA4Data) (config : Config) (names : List String)
        (reqs : List RunReportRequest),
      build_request_list st config names = .ok reqs →
      ∀ r ∈ reqs, r.date_ranges = [(st.start_date, st.end_date)] ∧
        r.limit = 100000) := by
  refine ⟨fun _ _ _ => rfl, ?_⟩
  intro st config names
  induction names with
  | nil =>
    intro reqs h r hr
    unfold build_request_list at h
    cases h
    simp at hr
  | cons name rest ih =>
    intro reqs h r hr
    unfold build_request_list at h
    cases hd : parse_input config name "dimension" with
    | error e => rw [hd] at h; exact absurd h (by simp [ga4_bind_error])
    | ok dims =>
      rw [hd] at h
      simp only [ga4_bind_ok] at h
      cases hm : parse_input config name "metric" with
      | error e => rw [hm] at h; exact absurd h (by simp [ga4_bind_error])
      | ok mets =>
        rw [hm] at h
        simp only [ga4_bind_ok] at h
        cases ht : build_request_list st config rest with
        | error e => rw [ht] at h; exact absurd h (by simp [ga4_bind_error])
        | ok reqs' =>
          rw [ht] at h
          simp only [ga4_bind_ok] at h
          cases h
          rcases List.mem_cons.1 hr with rfl | hr'
          · exact ⟨rfl, rfl⟩
          · exact ih reqs' ht r hr'

/-- Witness for C4: the request shape at concrete lists, and the uniform
date range over the batch assembled from `cfgW`. -/
theorem c4_witness :
    request_parameters stW ["date"] ["activeUsers"] =
      { dimensions := ["date"], metrics := ["activeUsers"],
        date_ranges := [("2024-04-01", "2024-04-30")], limit := 100000 } ∧
    ∀ r ∈ reqsW, r.date_ranges = [("2024-04-01", "2024-04-30")] ∧
      r.limit = 100000 := by
  constructor
  · exact c4_request_shape_and_uniform_date_range.1 stW ["date"] ["activeUsers"]
  · intro r hr
    exact c4_request_shape_and_uniform_date_range.2 stW cfgW ["r1", "r2"] reqsW
      (by decide) r hr

/-- C9: `parse_input` fails (with the unbound-local `NameError`) when the
report name is absent from the configuration, fails (with `IndexError`
on `value[0]`) when no field-group record contains the requested kind,
and in the batch-report operation such a failure surfaces during
request assembly, before the client is ever invoked: the error is the
same for every client. -/
theorem c9_resolve_failure_before_network :
    (∀ (config : Config) (name kind : String),
      lookupKey config name = none →
      parse_input config name kind = .error .nameError) ∧
    (∀ (config : Config) (name kind : String) (records : List Record),
      lookupKey config name = some records →
      (∀ r ∈ records, hasKey r kind = false) →
      parse_input config name kind = .error .indexError) ∧
    (∀ (st : GetGA4Data) (client : Client) (property_id : Int)
        (config : Config) (name : String),
      name ∈ config.map Prod.fst →
      ((∃ e, parse_input config name "dimension" = .error e) ∨
        (∃ e, parse_input config name "metric" = .error e)) →
      ∃ e, run_report_batch st client property_id config = .error e) := by
  refine ⟨?_, ?_, ?_⟩
  · intro config name kind h
    simp [parse_input, h]
  · intro config name kind records hname habs
    have hfil : records.filter (fun r => hasKey r kind) = [] :=
      List.filter_eq_nil_iff.mpr (fun r hr => by simp [habs r hr])
    simp [parse_input, hname, hfil]
  · intro st client property_id config name hmem hfail
    cases hb : build_request_list st config (config.map Prod.fst) with
    | error e =>
      refine ⟨e, ?_⟩
      unfold run_report_batch
      rw [hb]
      rfl
    | ok reqs =>
      exfalso
      obtain ⟨dims, mets, hd, hm⟩ := build_request_list_parse_ok st config
        (config.map Prod.fst) reqs hb name hmem
      rcases hfail with ⟨e, he⟩ | ⟨e, he⟩
      · rw [hd] at he
        exact Except.noConfusion he
      · rw [hm] at he
        exact Except.noConfusion he

/-- Witness for C9: a missing report name, a report without a `metric`
record, and the resulting client-independent batch failure. -/
theorem c9_witness :
    parse_input cfgW "missing" "dimension" = .error .nameError ∧
    parse_input cfgBadW "b1" "metric" = .error .indexError ∧
    ∃ e, run_report_batch stW clientW 77 cfgBadW = .error e := by
  refine ⟨?_, ?_, ?_⟩
  · exact c9_resolve_failure_before_network.1 cfgW "missing" "dimension"
      (by decide)
  · exact c9_resolve_failure_before_network.2.1 cfgBadW "b1" "metric"
      [[("dimension", ["date"])]] (by decide) (by decide)
  · exact c9_resolve_failure_before_network.2.2 stW clientW 77 cfgBadW "b1"
      (by decide) (Or.inr ⟨.indexError, by decide⟩)

/-- C6: type coercion is applied exactly to the fixed allow-list, with
`activeUsers`, `active1DayUsers`, `active7DayUsers`, `active28DayUsers`,
`engagedSessions` and `sessions` cast to int64 and
`userEngagementDuration` to float64; every column outside the
allow-list is left untouched (raw text); and when none of the allow-list
names is present the frame passes through entirely unchanged, with no
error. -/
theorem c6_type_coercion_allow_list (df df' : DataFrame)
    (h : change_col_type df = .ok df') :
    column_types =
      [("activeUsers", Dtype.int64), ("active1DayUsers", Dtype.int64),
       ("active7DayUsers", Dtype.int64), ("active28DayUsers", Dtype.int64),
       ("userEngagementDuration", Dtype.float64),
       ("engagedSessions", Dtype.int64), ("sessions", Dtype.int64)] ∧
    (∀ c, (∀ p ∈ column_types, p.1 ≠ c) → df'.getCol c = df.getCol c) ∧
    (∀ c dt, (c, dt) ∈ column_types → df.hasCol c = true →
      ∃ col col', df.getCol c = some col ∧ astype col dt = .ok col' ∧
        df'.getCol c = some col') ∧
    ((∀ p ∈ column_types, df.hasCol p.1 = false) → df' = df) := by
  have hfold : List.foldlM coerceStep df column_types = .ok df' := h
  refine ⟨rfl, ?_, ?_, ?_⟩
  · intro c hni
    exact foldlM_coerceStep_getCol_ne column_types df df' c hni hfold
  · intro c dt hmem hc
    exact foldlM_coerceStep_getCol_mem column_types df df' c dt hmem
      (by decide) hc hfold
  · intro habs
    have hid := foldlM_coerceStep_id column_types df habs
    rw [hid] at hfold
    exact (Except.ok.inj hfold).symm

/-- Witness for C6 at the concrete frame `dfRawW`: the non-allow-list
column is untouched and the `sessions` column is the int64 cast of the
original. -/
theorem c6_witness :
    dfTypedW.getCol "userGender" = dfRawW.getCol "userGender" ∧
    ∃ col col', dfRawW.getCol "sessions" = some col ∧
      astype col Dtype.int64 = .ok col' ∧
      dfTypedW.getCol "sessions" = some col' := by
  have h := c6_type_coercion_allow_list dfRawW dfTypedW (by decide)
  exact ⟨h.2.1 "userGender" (by decide),
    h.2.2.1 "sessions" Dtype.int64 (by decide) (by decide)⟩

/-- C7: after provenance stamping, the `uuid` column holds one freshly
drawn value per row (pairwise distinct whenever the draw source is
injective on the row indices) and the `emitted_at` column holds the one
`datetime.now()` value of this table-build call, replicated to every
row. -/
theorem c7_provenance_stamping (gen : Nat → String) (now : PyDatetime)
    (df : DataFrame)
    (hinj : ∀ i j, i < df.nrows → j < df.nrows → gen i = gen j → i = j) :
    ∃ ucol ecol,
      (add_insert_info gen now df).getCol "uuid" = some ucol ∧
      ucol.length = df.nrows ∧ ucol.Nodup ∧
      (add_insert_info gen now df).getCol "emitted_at" = some ecol ∧
      ecol = List.replicate df.nrows (Cell.dtVal now) := by
  refine ⟨(List.range df.nrows).map (fun i => Cell.rawStr (gen i)),
    List.replicate df.nrows (Cell.dtVal now),
    add_insert_info_getCol_uuid gen now df, by simp, ?_,
    add_insert_info_getCol_emitted gen now df, rfl⟩
  apply List.Nodup.map_on ?_ (List.nodup_range df.nrows)
  intro i hi j hj he
  exact hinj i j (List.mem_range.1 hi) (List.mem_range.1 hj)
    (Cell.rawStr.inj he)

/-- Witness for C7 at the one-row frame `df1W` with the deterministic
draw source. -/
theorem c7_witness :
    ∃ ucol ecol,
      (add_insert_info (genW 0) (clkW 0) df1W).getCol "uuid" = some ucol ∧
      ucol.length = df1W.nrows ∧ ucol.Nodup ∧
      (add_insert_info (genW 0) (clkW 0) df1W).getCol "emitted_at" =
        some ecol ∧
      ecol = List.replicate df1W.nrows (Cell.dtVal (clkW 0)) :=
  c7_provenance_stamping (genW 0) (clkW 0) df1W
    (fun i j hi hj _ => by
      have hi' : i < 1 := hi
      have hj' : j < 1 := hj
      omega)

theorem toDatetimeCell_ok_dtVal (c c' : Cell) (h : toDatetimeCell c = .ok c') :
    ∃ t, c' = Cell.dtVal t := by
  unfold toDatetimeCell at h
  split at h
  · split at h
    · exact ⟨_, (Except.ok.inj h).symm⟩
    · exact absurd h (by simp)
  · exact ⟨_, (Except.ok.inj h).symm⟩
  · exact absurd h (by simp)

/-- C8: for every successfully finalized table (which presupposes a
parseable `date` column), every value of the resulting `date` column is
a datetime with zero time-of-day. -/
theorem c8_date_midnight (gen : Nat → String) (now : PyDatetime) (data : Data)
    (df : DataFrame) (h : create_dataframe gen now data = .ok df) :
    ∃ col, df.getCol "date" = some col ∧
      ∀ c ∈ col, ∃ t : PyDatetime, c = .dtVal t ∧ t.hour = 0 ∧ t.minute = 0 ∧
        t.second = 0 ∧ t.microsecond = 0 := by
  obtain ⟨df₀, df₁, df₂, h₀, h₁, h₂, hdf⟩ :=
    create_dataframe_parts gen now data df h
  obtain ⟨col₀, parsed, hg, hp, hdf₂⟩ := change_date_type_parts df₁ df₂ h₂
  refine ⟨parsed.map truncateToMidnight, ?_, ?_⟩
  · rw [hdf, add_insert_info_getCol_ne gen now df₂ "date" (by decide)
      (by decide), hdf₂]
    exact getCol_setCol_self df₁ "date" _
  · intro c hc
    rcases List.mem_map.1 hc with ⟨p, hpmem, rfl⟩
    obtain ⟨orig, _, hto⟩ := mapM_ok_mem toDatetimeCell col₀ parsed hp p hpmem
    obtain ⟨t, rfl⟩ := toDatetimeCell_ok_dtVal orig p hto
    exact ⟨⟨t.year, t.month, t.day, 0, 0, 0, 0⟩, rfl, rfl, rfl, rfl, rfl⟩

/-- Witness for C8 at the concrete accumulator `[("date", ["20240401"])]`,
whose finalized frame is `df8W`. -/
theorem c8_witness :
    ∃ col, df8W.getCol "date" = some col ∧
      ∀ c ∈ col, ∃ t : PyDatetime, c = .dtVal t ∧ t.hour = 0 ∧ t.minute = 0 ∧
        t.second = 0 ∧ t.microsecond = 0 :=
  c8_date_midnight (genW 0) (clkW 0) [("date", ["20240401"])] df8W (by decide)

/-- C1 counterexample: a batch whose single report resolves the dimension
list `["userGender"]` (no `date`).  The claim says finalization
completes without error for such a table; instead the whole operation
fails with the missing-`date`-column `KeyError`, because
`create_dataframe` calls `change_date_type` unconditionally. -/
theorem c1_counterexample :
    generate_batch_report stW genW clkW clientNoDateW 77 cfgNoDateW =
      .error .keyError := by decide

/-- C1 (amended): date normalization is attempted for every finalized
table regardless of the requested dimensions; whenever the accumulated
columns do not include `date` (in particular when no `date` dimension
was requested) and the earlier steps succeed, table finalization fails
with the missing-column `KeyError` instead of completing. -/
theorem c1_no_date_finalize_fails (gen : Nat → String) (now : PyDatetime)
    (data : Data) (df₀ df₁ : DataFrame)
    (h₀ : pdDataFrame data = .ok df₀)
    (h₁ : change_col_type df₀ = .ok df₁)
    (hnd : hasKey data "date" = false) :
    create_dataframe gen now data = .error .keyError := by
  have hn₁ : df₁.cols.map Prod.fst = data.map Prod.fst := by
    have h₁f : List.foldlM coerceStep df₀ column_types = .ok df₁ := h₁
    rw [foldlM_coerceStep_names column_types df₀ df₁ h₁f]
    exact pdDataFrame_names data df₀ h₀
  have hdate : df₁.getCol "date" = none := by
    apply lookupKey_eq_none
    rw [hasKey_eq_false_iff, hn₁]
    exact (hasKey_eq_false_iff data "date").1 hnd
  have hcdt : change_date_type df₁ = .error .keyError := by
    unfold change_date_type
    rw [hdate]
  unfold create_dataframe
  rw [h₀]
  simp only [ga4_bind_ok]
  rw [h₁]
  simp only [ga4_bind_ok]
  rw [hcdt]
  rfl

/-- Witness for the amended C1 at the concrete accumulator
`[("userGender", ["male"])]`. -/
theorem c1_witness :
    create_dataframe (genW 1) (clkW 1) [("userGender", ["male"])] =
      .error .keyError :=
  c1_no_date_finalize_fails (genW 1) (clkW 1) [("userGender", ["male"])]
    ⟨[("userGender", [Cell.rawStr "male"])]⟩
    ⟨[("userGender", [Cell.rawStr "male"])]⟩
    (by decide) (by decide) (by decide)

/-- C10: a report result with zero rows makes table finalization fail with
the missing-`date` `KeyError` (raised by date normalization on the
empty accumulator) when that report is processed, and the whole
batch-report operation aborts with an error rather than producing an
empty table. -/
theorem c10_zero_rows_aborts :
    (∀ (uuidGen : Nat → Nat → String) (clock : Nat → PyDatetime)
        (config : Config) (names : List String) (rep : Report)
        (rest : List Report) (i : Nat), rep.rows = [] →
      build_tables uuidGen clock config names (rep :: rest) i =
        .error .keyError) ∧
    (∀ (st : GetGA4Data) (uuidGen : Nat → Nat → String)
        (clock : Nat → PyDatetime) (client : Client) (property_id : Int)
        (config : Config) (resp : Response) (rep : Report),
      run_report_batch st client property_id config = .ok resp →
      rep ∈ resp.reports → rep.rows = [] →
      ∃ e, generate_batch_report st uuidGen clock client property_id config =
        .error e) := by
  constructor
  · exact fun uuidGen clock config names rep rest i h =>
      build_tables_head_empty uuidGen clock config names rep rest i h
  · intro st uuidGen clock client property_id config resp rep hresp hmem hrows
    obtain ⟨e, he⟩ := build_tables_mem_empty uuidGen clock config
      (config.map Prod.fst) resp.reports 0 rep hmem hrows
    refine ⟨e, ?_⟩
    unfold generate_batch_report
    rw [hresp]
    simp only [ga4_bind_ok]
    exact he

/-- Witness for C10 at a concrete zero-row response against `cfgW`. -/
theorem c10_witness :
    build_tables genW clkW cfgW (cfgW.map Prod.fst) [⟨[]⟩] 0 =
      .error .keyError ∧
    ∃ e, generate_batch_report stW genW clkW clientEmptyW 77 cfgW =
      .error e :=
  ⟨c10_zero_rows_aborts.1 genW clkW cfgW (cfgW.map Prod.fst) ⟨[]⟩ [] 0 rfl,
   c10_zero_rows_aborts.2 stW genW clkW clientEmptyW 77 cfgW respEmptyW ⟨[]⟩
     (by decide) (by decide) rfl⟩

/-- C2: when the response carries `k` report results for a configuration
with more than `k` report names, a successful result mapping holds
tables for exactly the first `k` report names in the configuration's
key order; the trailing names are absent (no error is raised for them,
as the concrete witness shows by producing an `ok` result). -/
theorem c2_short_response_first_k_names (st : GetGA4Data)
    (uuidGen : Nat → Nat → String) (clock : Nat → PyDatetime)
    (client : Client) (property_id : Int) (config : Config) (resp : Response)
    (m : List (String × DataFrame))
    (hresp : run_report_batch st client property_id config = .ok resp)
    (hk : resp.reports.length < (config.map Prod.fst).length)
    (hnd : (config.map Prod.fst).Nodup)
    (hok : generate_batch_report st uuidGen clock client property_id config =
      .ok m) :
    m.map Prod.fst = (config.map Prod.fst).take resp.reports.length ∧
    ∀ name ∈ (config.map Prod.fst).drop resp.reports.length,
      name ∉ m.map Prod.fst := by
  unfold generate_batch_report at hok
  rw [hresp] at hok
  simp only [ga4_bind_ok] at hok
  have hfst := build_tables_fst uuidGen clock config (config.map Prod.fst)
    resp.reports 0 m hok
  rw [List.drop_zero] at hfst
  refine ⟨hfst, ?_⟩
  intro name hdrop hmem
  rw [hfst] at hmem
  exact (List.disjoint_take_drop hnd le_rfl) hmem hdrop

/-- Witness for C2: the one-report response `respW` against the two-report
configuration `cfgW` yields the mapping `mW` whose only key is `r1`. -/
theorem c2_witness :
    mW.map Prod.fst = (cfgW.map Prod.fst).take respW.reports.length ∧
    ∀ name ∈ (cfgW.map Prod.fst).drop respW.reports.length,
      name ∉ mW.map Prod.fst :=
  c2_short_response_first_k_names stW genW clkW clientW 77 cfgW respW mW
    (by decide) (by decide) (by decide) (by decide)

/-- C5: every table of a successful result mapping has exactly
`len(dimensions) + len(metrics) + 2` columns, the two extra columns
being the provenance columns `uuid` and `emitted_at` (provided the
resolved field names are pairwise distinct and distinct from the two
provenance names). -/
theorem c5_column_count (st : GetGA4Data) (uuidGen : Nat → Nat → String)
    (clock : Nat → PyDatetime) (client : Client) (property_id : Int)
    (config : Config) (m : List (String × DataFrame)) (name : String)
    (df : DataFrame) (dims mets : List String)
    (hok : generate_batch_report st uuidGen clock client property_id config =
      .ok m)
    (hmem : (name, df) ∈ m)
    (hd : parse_input config name "dimension" = .ok dims)
    (hm : parse_input config name "metric" = .ok mets)
    (hnd : (dims ++ mets ++ ["uuid", "emitted_at"]).Nodup) :
    df.cols.length = dims.length + mets.length + 2 := by
  unfold generate_batch_report at hok
  cases hresp : run_report_batch st client property_id config with
  | error e => rw [hresp] at hok; exact absurd hok (by simp [ga4_bind_error])
  | ok resp =>
    rw [hresp] at hok
    simp only [ga4_bind_ok] at hok
    obtain ⟨j, rep, hn, _, hrt⟩ := build_tables_mem_table uuidGen clock config
      (config.map Prod.fst) resp.reports 0 m hok (name, df) hmem
    have hnames := report_table_names (uuidGen j) (clock j) config
      (config.map Prod.fst) j rep name dims mets df hn hd hm hnd hrt
    have hlen : df.cols.length = (df.cols.map Prod.fst).length := by simp
    rw [hlen, hnames]
    simp only [List.length_append, List.length_cons, List.length_nil]

/-- Witness for C5 at the table `dfW` of report `r1` in the mapping `mW`. -/
theorem c5_witness : dfW.cols.length = 1 + 1 + 2 :=
  c5_column_count stW genW clkW clientW 77 cfgW mW "r1" dfW
    ["date"] ["activeUsers"]
    (by decide) (by decide) (by decide) (by decide) (by decide)

end GA4
